import Mathlib

/-!
Shallow embedding of the QA-agents pipeline (src/zcopies): snapshot capture
tools, the test runner, the test-script generator, the graph routing
functions, and the advanced test-healer loop.

Python strings are modelled as `List Char`; Python dictionaries produced by
`json.loads` are modelled by the inductive `JVal`; fallible operations return
`Except`/`Option`.  External collaborators (the language model, the tool
sandbox, the clock) are oracle parameters quantified over in the theorems.
-/

namespace QAAgents

/-- Convert a string literal into the character-list representation used for
Python strings throughout this development. -/
def cs (s : String) : List Char := s.toList

/-- Python `str.strip()` with no argument: remove whitespace from both ends. -/
def pyStrip (s : List Char) : List Char :=
  ((s.dropWhile Char.isWhitespace).reverse.dropWhile Char.isWhitespace).reverse

/-- Python truthiness test `a or b` specialised to strings: `a` if non-empty,
else `b` (used for `proc.stderr or proc.stdout` in the test runner). -/
def pyOrStr (a b : List Char) : List Char := if a = [] then b else a

/-- Decimal rendering of a natural number (Python f-string interpolation of an
integer). -/
def natChars (n : Nat) : List Char := (Nat.repr n).toList

/-- Python substring containment `needle in haystack`. -/
def containsSub (needle : List Char) : List Char → Bool
  | [] => needle.isEmpty
  | c :: rest => needle.isPrefixOf (c :: rest) || containsSub needle rest

/-! ## Filesystem model

Association list from path to file content; the first binding for a path is
the file's current content. -/

def Fs : Type := List (List Char × List Char)

/-- Read a file: `Path.exists` / `Path.read_text` combined. -/
def lookupFile (fs : Fs) (p : List Char) : Option (List Char) :=
  fs.lookup p

/-- Overwrite an existing file (`Path.write_text` on a present path): every
binding for the path is replaced by the new content. -/
def writeFile (fs : Fs) (p c : List Char) : Fs :=
  fs.map (fun kv => bif kv.1 == p then (p, c) else kv)

theorem lookupFile_writeFile_self (fs : Fs) (p c old : List Char)
    (h : lookupFile fs p = some old) :
    lookupFile (writeFile fs p c) p = some c := by
  induction fs with
  | nil => simp [lookupFile, List.lookup] at h
  | cons kv rest ih =>
    obtain ⟨k, v⟩ := kv
    by_cases hk : k = p
    · subst hk
      simp [lookupFile, writeFile, List.lookup]
    · have h1 : (k == p) = false := beq_eq_false_iff_ne.mpr hk
      have h2 : (p == k) = false := beq_eq_false_iff_ne.mpr (Ne.symm hk)
      simp only [lookupFile, List.lookup, h2] at h
      simpa only [lookupFile, writeFile, List.map_cons, h1, cond_false,
        List.lookup, h2] using ih h

theorem lookupFile_writeFile_other (fs : Fs) (p c q : List Char) (h : q ≠ p) :
    lookupFile (writeFile fs p c) q = lookupFile fs q := by
  induction fs with
  | nil => rfl
  | cons kv rest ih =>
    obtain ⟨k, v⟩ := kv
    by_cases hk : k = p
    · subst hk
      have hq : (q == k) = false := beq_eq_false_iff_ne.mpr h
      simpa only [lookupFile, writeFile, List.map_cons, beq_self_eq_true,
        cond_true, List.lookup, hq] using ih
    · have h1 : (k == p) = false := beq_eq_false_iff_ne.mpr hk
      simp only [lookupFile, writeFile, List.map_cons, h1, cond_false,
        List.lookup]
      cases hq : (q == k) with
      | true => rfl
      | false => exact ih

/-! ## `update_test_script` (src/tools/playwright_tools.py, lines 497-512) -/

/-- Embedding of the tool `update_test_script(script_name, updated_content)`:
refuse when `tests/<script_name>` does not exist, refuse when the new content
lacks a `test(` or an `import` token, otherwise overwrite the file.  Returns
the new filesystem and the tool's textual reply. -/
def updateTestScript (fs : Fs) (script_name updated_content : List Char) :
    Fs × List Char :=
  let script_path := cs "tests/" ++ script_name
  match lookupFile fs script_path with
  | none => (fs, cs "ERROR: Script " ++ script_name ++ cs " not found.")
  | some _ =>
    if !(containsSub (cs "test(") updated_content)
        || !(containsSub (cs "import") updated_content) then
      (fs, cs "ERROR: Invalid test content detected. Update aborted.")
    else
      (writeFile fs script_path updated_content,
       cs "Updated test script: " ++ script_name)

/-! ## Snapshot capture (src/tools/playwright_tools.py) -/

/-- Apostrophe character, used when assembling locator strings. -/
def sq : Char := '\x27'

/-- Accessibility-tree node as consumed by the snapshot tools: the `role` and
`name` values, each possibly absent. -/
structure AXNode where
  role : Option (List Char)
  name : Option (List Char)
deriving DecidableEq, Repr

/-- The `INTERACTIVE_ROLES` set of `browser_snapshot` and
`browser_failure_snapshot`. -/
def interactiveRoles : List (List Char) :=
  [cs "button", cs "textbox", cs "link", cs "combobox", cs "checkbox",
   cs "radio", cs "menuitem"]

/-- One entry of a snapshot's `actions` array. -/
structure InteractiveAction where
  role : List Char
  label : List Char
  ref : List Char
  locator : List Char
  fallback_locators : List (List Char)
deriving DecidableEq, Repr

/-- The locator string `page.getByRole('<role>', \x7b name: '<name>' \x7d)`. -/
def locatorFor (role name : List Char) : List Char :=
  cs "page.getByRole(" ++ [sq] ++ role ++ [sq] ++ cs ", \x7b name: "
    ++ [sq] ++ name ++ [sq] ++ cs " \x7d)"

/-- The action-extraction loop shared by `browser_snapshot` and
`browser_failure_snapshot`: keep nodes whose role is interactive and whose
name is present and non-blank, numbering refs `e1, e2, ...`. -/
def extractActionsGo : List AXNode → Nat → List InteractiveAction
  | [], _ => []
  | n :: rest, counter =>
    match n.role, n.name with
    | some r, some nm =>
      if r ∈ interactiveRoles ∧ pyStrip nm ≠ [] then
        ⟨r, nm, 'e' :: natChars counter, locatorFor r nm, []⟩
          :: extractActionsGo rest (counter + 1)
      else
        extractActionsGo rest counter
    | _, _ => extractActionsGo rest counter

/-- Actions captured from an accessibility tree, refs starting at `e1`. -/
def extractActions (nodes : List AXNode) : List InteractiveAction :=
  extractActionsGo nodes 1

/-- The snapshot record persisted to `output/snapshots`. -/
structure Snapshot where
  url : List Char
  page_name : List Char
  page_type : List Char
  actions : List InteractiveAction
deriving DecidableEq, Repr

/-- Page-type inference of `browser_snapshot` (lines 121-128): keyword search
over the lowercased page name. -/
def pageTypeOf (page_name : List Char) : List Char :=
  let lower_name := page_name.map Char.toLower
  if [cs "new", cs "edit", cs "create", cs "form"].any
      (fun k => containsSub k lower_name) then
    cs "form_page"
  else if [cs "list", cs "view"].any (fun k => containsSub k lower_name) then
    cs "list_view"
  else
    cs "general_page"

/-- The snapshot record built and persisted by `browser_snapshot(page_name)`
(lines 130-142); the page url and accessibility tree come from the browser. -/
def browser_snapshot_record (url page_name : List Char) (nodes : List AXNode) :
    Snapshot :=
  ⟨url, page_name, pageTypeOf page_name, extractActions nodes⟩

/-- The snapshot record built and persisted by
`browser_failure_snapshot(test_name)` (lines 474-488). -/
def browser_failure_snapshot_record (url test_name : List Char)
    (nodes : List AXNode) : Snapshot :=
  ⟨url, cs "FAIL_" ++ test_name, cs "failure_page", extractActions nodes⟩

theorem isPrefixOf_append_self (l t : List Char) :
    l.isPrefixOf (l ++ t) = true := by
  induction l with
  | nil => simp [List.isPrefixOf]
  | cons c r ih => simp [List.isPrefixOf, ih]

/-- C10: `update_test_script` returns an `ERROR:`-string and leaves the
filesystem unchanged when the named script does not exist under `tests/` or
when the provided content lacks a `test(` or an `import` token; only when the
script exists and both tokens are present does it overwrite that file with the
provided content, leave every other file unchanged, and acknowledge. -/
theorem update_test_script_guards (fs : Fs) (name content : List Char) :
    (lookupFile fs (cs "tests/" ++ name) = none →
      updateTestScript fs name content =
        (fs, cs "ERROR: Script " ++ name ++ cs " not found.") ∧
      (cs "ERROR:").isPrefixOf (updateTestScript fs name content).2 = true)
    ∧ ((containsSub (cs "test(") content
          && containsSub (cs "import") content) = false →
        (updateTestScript fs name content).1 = fs ∧
        (cs "ERROR:").isPrefixOf (updateTestScript fs name content).2 = true)
    ∧ (∀ old, lookupFile fs (cs "tests/" ++ name) = some old →
        containsSub (cs "test(") content = true →
        containsSub (cs "import") content = true →
        lookupFile (updateTestScript fs name content).1 (cs "tests/" ++ name)
            = some content ∧
        (∀ q, q ≠ cs "tests/" ++ name →
          lookupFile (updateTestScript fs name content).1 q = lookupFile fs q) ∧
        (updateTestScript fs name content).2
            = cs "Updated test script: " ++ name) := by
  have hpre : (cs "ERROR:").isPrefixOf
      (cs "ERROR: Script " ++ name ++ cs " not found.") = true := by
    have hsplit : cs "ERROR: Script " = cs "ERROR:" ++ cs " Script " := by decide
    rw [hsplit, List.append_assoc]
    exact isPrefixOf_append_self _ _
  refine ⟨?_, ?_, ?_⟩
  · intro h
    have heq : updateTestScript fs name content =
        (fs, cs "ERROR: Script " ++ name ++ cs " not found.") := by
      simp [updateTestScript, h]
    exact ⟨heq, by rw [heq]; exact hpre⟩
  · intro h
    have hcond : (!(containsSub (cs "test(") content)
        || !(containsSub (cs "import") content)) = true := by
      cases hA : containsSub (cs "test(") content <;>
        cases hB : containsSub (cs "import") content <;> simp_all
    cases hl : lookupFile fs (cs "tests/" ++ name) with
    | none =>
      have heq : updateTestScript fs name content =
          (fs, cs "ERROR: Script " ++ name ++ cs " not found.") := by
        simp [updateTestScript, hl]
      rw [heq]
      exact ⟨rfl, hpre⟩
    | some old =>
      have heq : updateTestScript fs name content =
          (fs, cs "ERROR: Invalid test content detected. Update aborted.") := by
        simp [updateTestScript, hl, hcond]
      rw [heq]
      refine ⟨rfl, ?_⟩
      show (cs "ERROR:").isPrefixOf
        (cs "ERROR: Invalid test content detected. Update aborted.") = true
      decide
  · intro old hl hA hB
    have hcond : (!(containsSub (cs "test(") content)
        || !(containsSub (cs "import") content)) = false := by
      simp [hA, hB]
    have heq : updateTestScript fs name content =
        (writeFile fs (cs "tests/" ++ name) content,
         cs "Updated test script: " ++ name) := by
      simp [updateTestScript, hl, hcond]
    rw [heq]
    exact ⟨lookupFile_writeFile_self fs _ content old hl,
           fun q hq => lookupFile_writeFile_other fs _ content q hq, rfl⟩

/-- C10 witness: a concrete filesystem exercising all three branches of
`update_test_script_guards`. -/
theorem update_test_script_guards_witness :
    (updateTestScript [(cs "tests/TC-1.spec.ts", cs "old")] (cs "TC-2.spec.ts")
        (cs "import x; test(1)")).1 = [(cs "tests/TC-1.spec.ts", cs "old")] ∧
    (updateTestScript [(cs "tests/TC-1.spec.ts", cs "old")] (cs "TC-1.spec.ts")
        (cs "no tokens here")).1 = [(cs "tests/TC-1.spec.ts", cs "old")] ∧
    lookupFile (updateTestScript [(cs "tests/TC-1.spec.ts", cs "old")]
        (cs "TC-1.spec.ts") (cs "import x; test(1)")).1
        (cs "tests/TC-1.spec.ts") = some (cs "import x; test(1)") := by
  refine ⟨?_, ?_, ?_⟩
  · have h := (update_test_script_guards [(cs "tests/TC-1.spec.ts", cs "old")]
      (cs "TC-2.spec.ts") (cs "import x; test(1)")).1 (by decide)
    rw [h.1]
  · exact ((update_test_script_guards [(cs "tests/TC-1.spec.ts", cs "old")]
      (cs "TC-1.spec.ts") (cs "no tokens here")).2.1 (by decide)).1
  · exact (((update_test_script_guards [(cs "tests/TC-1.spec.ts", cs "old")]
      (cs "TC-1.spec.ts") (cs "import x; test(1)")).2.2 (cs "old") (by decide)
      (by decide) (by decide)).1)

/-- C9 counterexample: the snapshot persisted by `browser_failure_snapshot`
has `page_type = failure_page`, which is not one of `form_page`, `list_view`,
`general_page`. -/
theorem failure_snapshot_page_type_cex :
    (browser_failure_snapshot_record [] (cs "TC-1") []).page_type ∉
      [cs "form_page", cs "list_view", cs "general_page"] := by decide

/-- C9 (amended): every snapshot persisted by `browser_snapshot` has a
`page_type` among `form_page`, `list_view`, `general_page`, determined from
the supplied page name alone by the keyword rule `pageTypeOf`;
`browser_failure_snapshot`, by contrast, always persists the fixed page type
`failure_page`. -/
theorem snapshot_page_type_classified :
    (∀ url page_name nodes,
      (browser_snapshot_record url page_name nodes).page_type ∈
          [cs "form_page", cs "list_view", cs "general_page"] ∧
      (browser_snapshot_record url page_name nodes).page_type
          = pageTypeOf page_name)
    ∧ (∀ url test_name nodes,
      (browser_failure_snapshot_record url test_name nodes).page_type
          = cs "failure_page") := by
  refine ⟨fun url page_name nodes => ⟨?_, rfl⟩, fun _ _ _ => rfl⟩
  unfold browser_snapshot_record pageTypeOf
  dsimp only
  split
  · simp
  · split <;> simp

/-! ## TestRunner (src/agents/test_runner.py) -/

/-- Outcome of one external `npx playwright test <script>` invocation
(`subprocess.run`): a completed process with its return code and captured
output, or a `TimeoutExpired`. -/
inductive RunResult where
  | completed (returncode : Int) (stdout stderr : List Char)
  | timedOut
deriving DecidableEq, Repr

/-- One discovered test script (`tests/*.spec.ts`) with its execution
outcome. -/
structure ScriptRun where
  name : List Char
  path : List Char
  content : List Char
  result : RunResult
deriving DecidableEq, Repr

/-- A `TestFailure` record as built by `test_runner_node` (lines 44-57). -/
structure TestFailureRec where
  script_name : List Char
  script_path : List Char
  script_content : List Char
  logs : List Char
deriving DecidableEq, Repr

/-- Classification of one script by the runner loop (lines 35-57): a non-zero
return code yields a failure with the stripped, 4000-character-truncated
`stderr or stdout`; a timeout yields a failure with the fixed timeout log;
return code zero yields nothing. -/
def classifyScript (s : ScriptRun) : Option TestFailureRec :=
  match s.result with
  | .completed rc out err =>
    if rc ≠ 0 then
      some ⟨s.name, s.path, s.content, (pyStrip (pyOrStr err out)).take 4000⟩
    else
      none
  | .timedOut =>
    some ⟨s.name, s.path, s.content,
          cs "Test execution timed out after 60 seconds"⟩

/-- The per-failure block of the LLM payload (lines 76-87). -/
def failureBlock (f : TestFailureRec) : List Char :=
  cs "\nSCRIPT NAME:\n" ++ f.script_name ++ cs "\n\nSCRIPT CONTENT:\n"
    ++ f.script_content ++ cs "\n\nFAILURE LOGS:\n" ++ f.logs ++ cs "\n"

/-- Python `sep.join(xs)`. -/
def joinSep (sep : List Char) : List (List Char) → List Char
  | [] => []
  | [x] => x
  | x :: y :: rest => x ++ sep ++ joinSep sep (y :: rest)

/-- Result of one `test_runner_node` invocation, together with its observable
side effects (ModelProvider calls made and report artifacts written). -/
structure RunnerOutcome where
  has_test_failures : Bool
  failures : List TestFailureRec
  failure_report_path : Option (List Char)
  llm_analysis : Option (List Char)
  modelCalls : Nat
  artifactWrites : List (List Char × List Char)
deriving DecidableEq, Repr

/-- Embedding of `test_runner_node`: classify every script, short-circuit on
zero failures, otherwise make one ModelProvider call on the joined payload
(the fixed system prompt is constant and elided; provider message content is
modelled as a string, so the list-normalisation of lines 98-104 is the
identity) and write the consolidated report.  A provider failure propagates
(`Except.error`). -/
def test_runner_node (scripts : List ScriptRun)
    (llm : List Char → Except Unit (List Char)) :
    Except Unit RunnerOutcome :=
  let failures := scripts.filterMap classifyScript
  if failures = [] then
    .ok ⟨false, [], none, none, 0, []⟩
  else
    match llm (joinSep (cs "\n\n---\n\n") (failures.map failureBlock)) with
    | .error e => .error e
    | .ok markdown_report =>
      .ok ⟨true, failures,
           some (cs "output/failure_report/failure_analysis.md"),
           some markdown_report, 1,
           [(cs "output/failure_report/failure_analysis.md", markdown_report)]⟩

/-- Embedding of `route_after_test_runner` (src/graph/workflow.py, lines
20-23); the argument models `state.get("has_test_failures", False)`. -/
def route_after_test_runner (has_test_failures : Option Bool) : List Char :=
  if has_test_failures.getD false then cs "heal_advanced" else cs "end"

/-- C4: when the runner classifies zero scripts as failing it returns
`has_test_failures = false`, an empty failures list and a null report path,
makes no ModelProvider call, writes no report artifact, and the router then
selects the end node, so the Healer is never invoked. -/
theorem test_runner_clean_run_short_circuit (scripts : List ScriptRun)
    (llm : List Char → Except Unit (List Char))
    (h : ∀ s ∈ scripts, classifyScript s = none) :
    test_runner_node scripts llm = .ok ⟨false, [], none, none, 0, []⟩ ∧
    (∀ out, test_runner_node scripts llm = .ok out →
      route_after_test_runner (some out.has_test_failures) = cs "end") := by
  have hfail : scripts.filterMap classifyScript = [] :=
    List.filterMap_eq_nil_iff.mpr h
  have heq : test_runner_node scripts llm =
      .ok ⟨false, [], none, none, 0, []⟩ := by
    simp [test_runner_node, hfail]
  refine ⟨heq, fun out hout => ?_⟩
  rw [heq] at hout
  cases hout
  rfl

/-- C4 witness: one passing script. -/
theorem test_runner_clean_run_short_circuit_witness :
    (∀ s ∈ [({ name := cs "TC-1.spec.ts", path := cs "tests/TC-1.spec.ts",
               content := cs "c",
               result := RunResult.completed 0 (cs "1 passed") [] } : ScriptRun)],
        classifyScript s = none) ∧
    test_runner_node
        [{ name := cs "TC-1.spec.ts", path := cs "tests/TC-1.spec.ts",
           content := cs "c",
           result := RunResult.completed 0 (cs "1 passed") [] }]
        (fun _ => .ok (cs "report")) =
      .ok ⟨false, [], none, none, 0, []⟩ :=
  ⟨by decide,
   (test_runner_clean_run_short_circuit _ (fun _ => .ok (cs "report"))
     (by decide)).1⟩

/-- C5: after every completed TestRunner invocation the failures list is
non-empty exactly when `has_test_failures` is true. -/
theorem test_runner_failures_iff_flag (scripts : List ScriptRun)
    (llm : List Char → Except Unit (List Char)) (out : RunnerOutcome)
    (h : test_runner_node scripts llm = .ok out) :
    out.failures ≠ [] ↔ out.has_test_failures = true := by
  unfold test_runner_node at h
  by_cases hf : scripts.filterMap classifyScript = []
  · simp only [hf, if_pos rfl] at h
    simp at h
    cases h
    simp
  · simp only [if_neg hf] at h
    cases hllm : llm (joinSep (cs "\n\n---\n\n")
        ((scripts.filterMap classifyScript).map failureBlock)) with
    | error e => rw [hllm] at h; cases h
    | ok report =>
      rw [hllm] at h
      cases h
      simpa using hf

/-- C5 witness: a run with one failing script has a non-empty failures list
and the flag set. -/
theorem test_runner_failures_iff_flag_witness :
    (test_runner_node
        [{ name := cs "TC-1.spec.ts", path := cs "tests/TC-1.spec.ts",
           content := cs "c",
           result := RunResult.completed 1 [] (cs "boom") }]
        (fun _ => .ok (cs "report"))).isOk = true ∧
    (∀ out, test_runner_node
        [{ name := cs "TC-1.spec.ts", path := cs "tests/TC-1.spec.ts",
           content := cs "c",
           result := RunResult.completed 1 [] (cs "boom") }]
        (fun _ => .ok (cs "report")) = .ok out →
      (out.failures ≠ [] ↔ out.has_test_failures = true)) :=
  ⟨by decide, fun out hout =>
    test_runner_failures_iff_flag _ (fun _ => .ok (cs "report")) out hout⟩

/-! ## Conversation messages and cross-stage merging (src/graph/state.py) -/

/-- One tool call requested by a model response (`ToolCall\x7bname, args, id\x7d`);
the arguments are carried as an opaque serialised string. -/
structure ToolCallRec where
  name : List Char
  args : List Char
  callId : List Char
deriving DecidableEq, Repr

/-- LangChain-style conversation message as appended by the stage nodes. -/
inductive Msg where
  | system (content : List Char)
  | human (content : List Char)
  | ai (content : List Char) (tool_calls : List ToolCallRec)
  | tool (content : List Char) (tool_call_id : List Char)
deriving DecidableEq, Repr

/-- A message together with the id LangGraph assigns before merging (fresh
messages receive ids not present in the history). -/
structure IdMsg where
  id : Nat
  msg : Msg
deriving DecidableEq, Repr

/-- Modelled from the LangGraph `add_messages` reducer declared on
`AgentState.messages` (src/graph/state.py, line 13), which governs how a stage
node's returned `messages` value merges into the shared state: each incoming
message whose id matches an existing one replaces that message in place, and
every other incoming message is appended to the history. -/
def add_messages (left right : List IdMsg) : List IdMsg :=
  right.foldl
    (fun acc m =>
      if acc.any (fun x => x.id == m.id) then
        acc.map (fun x => bif x.id == m.id then m else x)
      else
        acc ++ [m])
    left

/-- C6 counterexample: merging a stage's single fresh response message into a
non-empty accumulated history does not replace the history wholesale; the
result is the concatenation. -/
theorem add_messages_not_replacement_cex :
    add_messages [⟨0, Msg.human (cs "plan the tests")⟩]
        [⟨1, Msg.ai (cs "the plan") []⟩]
      ≠ [⟨1, Msg.ai (cs "the plan") []⟩] ∧
    add_messages [⟨0, Msg.human (cs "plan the tests")⟩]
        [⟨1, Msg.ai (cs "the plan") []⟩]
      = [⟨0, Msg.human (cs "plan the tests")⟩, ⟨1, Msg.ai (cs "the plan") []⟩] := by
  decide

/-- C6 (amended): when a stage node's returned `messages` value carries ids
distinct from each other and from the accumulated history — the situation for
every freshly produced message — the `add_messages` merge appends the new
messages onto the history; the history is never replaced wholesale. -/
theorem add_messages_appends_fresh (left right : List IdMsg)
    (h : ((left ++ right).map IdMsg.id).Nodup) :
    add_messages left right = left ++ right := by
  induction right generalizing left with
  | nil => simp [add_messages]
  | cons m rest ih =>
    have hm : ∀ x ∈ left, ¬ x.id = m.id := by
      intro x hx he
      rw [List.map_append] at h
      have hdisj := List.disjoint_of_nodup_append h
      exact hdisj (List.mem_map_of_mem _ hx)
        (by rw [he]; simp)
    have hany : left.any (fun x => x.id == m.id) = false := by
      by_contra hc
      rw [Bool.not_eq_false, List.any_eq_true] at hc
      obtain ⟨x, hx, hbeq⟩ := hc
      exact hm x hx (by simpa using hbeq)
    have hstep : add_messages left (m :: rest)
        = add_messages (left ++ [m]) rest := by
      unfold add_messages
      rw [List.foldl_cons, if_neg (by rw [hany]; exact Bool.false_ne_true)]
    rw [hstep, ih (left ++ [m]) (by simpa [List.append_assoc] using h)]
    simp

/-- C6 witness: a concrete fresh merge appends. -/
theorem add_messages_appends_fresh_witness :
    (([(⟨2, Msg.system (cs "prompt")⟩ : IdMsg)] ++
        [(⟨3, Msg.human (cs "go")⟩ : IdMsg)]).map IdMsg.id).Nodup ∧
    add_messages [⟨2, Msg.system (cs "prompt")⟩] [⟨3, Msg.human (cs "go")⟩]
      = [⟨2, Msg.system (cs "prompt")⟩, ⟨3, Msg.human (cs "go")⟩] :=
  ⟨by decide,
   add_messages_appends_fresh [⟨2, Msg.system (cs "prompt")⟩]
     [⟨3, Msg.human (cs "go")⟩] (by decide)⟩

/-! ## TestScriptGenerator (src/agents/test_script_generator.py) -/

/-- The fixed boilerplate header prepended to every generated script file
(line 56). -/
def scriptHeader : List Char :=
  cs "import \x7b test, expect \x7d from \"@playwright/test\";\ntest.use(\x7b storageState: \"auth_state.json\" \x7d);\n\n"

/-- The token introducing a new executable test declaration. -/
def testDecl : List Char := cs "test("

/-- Modelled `re.split` on the zero-width pattern `(?=test\()` (line 53): cut
the text immediately before every occurrence of the token. -/
def splitBeforeGo (needle : List Char) :
    List Char → List Char → List (List Char)
  | [], acc => [acc.reverse]
  | c :: rest, acc =>
    if needle.isPrefixOf (c :: rest) then
      acc.reverse :: splitBeforeGo needle rest [c]
    else
      splitBeforeGo needle rest (c :: acc)

def splitBefore (needle s : List Char) : List (List Char) :=
  splitBeforeGo needle s []

/-- Lines 59-63: keep the stripped chunks that start with `test(` and prepend
the header to each. -/
def extractTestScripts (content : List Char) : List (List Char) :=
  ((splitBefore testDecl content).map pyStrip).filterMap
    (fun s =>
      if s ≠ [] ∧ testDecl.isPrefixOf s then some (scriptHeader ++ s)
      else none)

/-- Index of the first occurrence of `needle` in `s`, if any. -/
def firstOccurIdx (needle : List Char) : List Char → Option Nat
  | [] => if needle = [] then some 0 else none
  | c :: rest =>
    if needle.isPrefixOf (c :: rest) then some 0
    else (firstOccurIdx needle rest).map (· + 1)

/-- Index of the first quote character (`"` or apostrophe) in `s`, if any. -/
def firstQuoteIdx : List Char → Option Nat
  | [] => none
  | c :: rest =>
    if c = '"' ∨ c = sq then some 0
    else (firstQuoteIdx rest).map (· + 1)

/-- Modelled attempt of the DOTALL regex
`test\(["'].*?<case_id>.*?['"](.*?)(?=test\(|$)` (line 70) at one position:
`s` is the text starting at the candidate position; a match needs `test(`
followed by a quote, then (lazily) the case id, then the next quote; it ends
just before the next `test(` or at the end of the text.  Returns `group(0)`.
Laziness collapses to first occurrences because a quote occurring after some
later case-id occurrence also occurs after the first one. -/
def fallbackMatchHere (case_id s : List Char) : Option (List Char) :=
  if testDecl.isPrefixOf s then
    match s.drop 5 with
    | [] => none
    | q :: body =>
      if q = '"' ∨ q = sq then
        match firstOccurIdx case_id body with
        | none => none
        | some p =>
          let afterId := body.drop (p + case_id.length)
          match firstQuoteIdx afterId with
          | none => none
          | some qi =>
            let afterQuote := afterId.drop (qi + 1)
            let stop := (firstOccurIdx testDecl afterQuote).getD
              afterQuote.length
            some (s.take (6 + p + case_id.length + qi + 1 + stop))
      else none
  else none

/-- Modelled `re.search`: try the pattern at each position from the left. -/
def fallbackSearchGo (case_id : List Char) : List Char → Option (List Char)
  | [] => none
  | c :: rest =>
    match fallbackMatchHere case_id (c :: rest) with
    | some g => some g
    | none => fallbackSearchGo case_id rest

def fallbackSearch (case_id content : List Char) : Option (List Char) :=
  fallbackSearchGo case_id content

/-- A planned test case: `case.get("id", default)` is modelled by the
optional `id` field (a case is otherwise opaque to the generator). -/
structure TestCaseRec where
  id : Option (List Char)
deriving DecidableEq, Repr

/-- The id used when writing case number `idx` (0-based):
`case.get("id", f"case_\x7bidx+1\x7d")` (line 77). -/
def caseFileId (idx : Nat) (c : TestCaseRec) : List Char :=
  c.id.getD (cs "case_" ++ natChars (idx + 1))

/-- Lines 66-73: fallback extraction per planned case (the id default is the
empty string here, and `test(` is prepended again before `group(0)`,
reproducing the source). -/
def fallbackScripts (cases : List TestCaseRec) (content : List Char) :
    List (List Char) :=
  cases.filterMap (fun c =>
    (fallbackSearch (c.id.getD []) content).map
      (fun g0 => scriptHeader ++ testDecl ++ g0))

/-- Line 52-67: the scripts list actually used by the writing loop. -/
def resolvedScripts (cases : List TestCaseRec) (content : List Char) :
    List (List Char) :=
  let primary := extractTestScripts content
  if primary = [] then fallbackScripts cases content else primary

/-- One write of the loop at lines 76-80. -/
def writeFor (scripts : List (List Char)) (idx : Nat) (c : TestCaseRec) :
    List Char × List Char :=
  let case_id := caseFileId idx c
  (cs "tests/" ++ case_id ++ cs ".spec.ts",
   (scripts.get? idx).getD
     (scriptHeader ++ cs "// TODO: Generate test for " ++ case_id))

/-- The ordered `(path, content)` writes performed by
`test_script_generator_node` for a planned case list and a model response
text. -/
def generatorWrites (cases : List TestCaseRec) (content : List Char) :
    List (List Char × List Char) :=
  (cases.enum).map (fun ic => writeFor (resolvedScripts cases content) ic.1 ic.2)

theorem extractTestScripts_header (content : List Char) (s : List Char)
    (hs : s ∈ extractTestScripts content) :
    ∃ t, s = scriptHeader ++ t := by
  obtain ⟨a, _, ha⟩ := List.mem_filterMap.mp hs
  by_cases hc : a ≠ [] ∧ testDecl.isPrefixOf a
  · rw [if_pos hc] at ha
    injection ha with h1
    exact ⟨a, h1.symm⟩
  · rw [if_neg hc] at ha
    cases ha

theorem fallbackScripts_header (cases : List TestCaseRec) (content : List Char)
    (s : List Char) (hs : s ∈ fallbackScripts cases content) :
    ∃ t, s = scriptHeader ++ t := by
  obtain ⟨c, _, hc⟩ := List.mem_filterMap.mp hs
  obtain ⟨g0, _, hg⟩ := Option.map_eq_some'.mp hc
  exact ⟨testDecl ++ g0, by rw [← hg, List.append_assoc]⟩

theorem resolvedScripts_header (cases : List TestCaseRec) (content : List Char)
    (s : List Char) (hs : s ∈ resolvedScripts cases content) :
    ∃ t, s = scriptHeader ++ t := by
  unfold resolvedScripts at hs
  dsimp only at hs
  by_cases hp : extractTestScripts content = []
  · rw [if_pos hp] at hs
    exact fallbackScripts_header cases content s hs
  · rw [if_neg hp] at hs
    exact extractTestScripts_header content s hs

/-- C7 counterexample: two planned cases sharing the id `TC-1` yield two
writes to the same file, so fewer than N distinct files are produced. -/
theorem generator_duplicate_ids_cex :
    (generatorWrites [⟨some (cs "TC-1")⟩, ⟨some (cs "TC-1")⟩] []).length = 2 ∧
    ¬ ((generatorWrites [⟨some (cs "TC-1")⟩, ⟨some (cs "TC-1")⟩] []).map
        Prod.fst).Nodup := by
  decide

/-- C7 (amended): for a planned list of N test cases whose resolved ids are
pairwise distinct, the generator performs exactly N writes, to N distinct
files (one per case id), each beginning with the fixed boilerplate header; and
every case whose index lies beyond the extracted scripts receives the explicit
placeholder content rather than being omitted. -/
theorem generator_one_file_per_case (cases : List TestCaseRec)
    (content : List Char)
    (h : ((cases.enum).map (fun ic => caseFileId ic.1 ic.2)).Nodup) :
    (generatorWrites cases content).length = cases.length ∧
    ((generatorWrites cases content).map Prod.fst).Nodup ∧
    (∀ w ∈ generatorWrites cases content,
      scriptHeader.isPrefixOf w.2 = true) ∧
    (∀ i c, cases.get? i = some c →
      (resolvedScripts cases content).length ≤ i →
      (generatorWrites cases content).get? i =
        some (cs "tests/" ++ caseFileId i c ++ cs ".spec.ts",
          scriptHeader ++ cs "// TODO: Generate test for " ++ caseFileId i c)) := by
  refine ⟨?_, ?_, ?_, ?_⟩
  · simp [generatorWrites]
  · have hmap : (generatorWrites cases content).map Prod.fst
        = ((cases.enum).map (fun ic => caseFileId ic.1 ic.2)).map
            (fun cid => cs "tests/" ++ cid ++ cs ".spec.ts") := by
      simp only [generatorWrites, List.map_map]
      rfl
    rw [hmap]
    refine List.Nodup.map ?_ h
    intro a b hab
    simp only at hab
    have h1 : cs "tests/" ++ (a ++ cs ".spec.ts")
        = cs "tests/" ++ (b ++ cs ".spec.ts") := by
      simpa [List.append_assoc] using hab
    exact List.append_cancel_right (List.append_cancel_left h1)
  · intro w hw
    obtain ⟨ic, _, hic⟩ := List.mem_map.mp hw
    have hsnd : w.2 = ((resolvedScripts cases content).get? ic.1).getD
        (scriptHeader ++ cs "// TODO: Generate test for "
          ++ caseFileId ic.1 ic.2) := by
      rw [← hic]; rfl
    cases hg : (resolvedScripts cases content).get? ic.1 with
    | none =>
      rw [hsnd, hg, Option.getD_none, List.append_assoc]
      exact isPrefixOf_append_self _ _
    | some s =>
      obtain ⟨t, ht⟩ := resolvedScripts_header cases content s
        (List.get?_mem hg)
      rw [hsnd, hg, Option.getD_some, ht]
      exact isPrefixOf_append_self _ _
  · intro i c hc hlen
    have hnone : (resolvedScripts cases content)[i]? = none := by
      rw [← List.get?_eq_getElem?]
      exact List.get?_eq_none.mpr hlen
    simp only [generatorWrites, List.get?_map, List.get?_enum, hc,
      Option.map_some']
    simp [writeFor, hnone, List.append_assoc, List.get?_eq_getElem?]

/-- C7 witness: two distinct planned cases with a one-test response text: the
first case receives the extracted script, the second the placeholder. -/
theorem generator_one_file_per_case_witness :
    ((([⟨some (cs "TC-1")⟩, ⟨some (cs "TC-2")⟩] :
        List TestCaseRec).enum).map (fun ic => caseFileId ic.1 ic.2)).Nodup ∧
    (generatorWrites [⟨some (cs "TC-1")⟩, ⟨some (cs "TC-2")⟩]
        (cs "import x\ntest(one)")).length = 2 ∧
    (generatorWrites [⟨some (cs "TC-1")⟩, ⟨some (cs "TC-2")⟩]
        (cs "import x\ntest(one)")).get? 1 =
      some (cs "tests/" ++ cs "TC-2" ++ cs ".spec.ts",
        scriptHeader ++ cs "// TODO: Generate test for " ++ cs "TC-2") := by
  refine ⟨by decide, ?_, ?_⟩
  · exact (generator_one_file_per_case
      [⟨some (cs "TC-1")⟩, ⟨some (cs "TC-2")⟩]
      (cs "import x\ntest(one)") (by decide)).1
  · exact (generator_one_file_per_case
      [⟨some (cs "TC-1")⟩, ⟨some (cs "TC-2")⟩]
      (cs "import x\ntest(one)") (by decide)).2.2.2 1 ⟨some (cs "TC-2")⟩
      (by decide) (by decide)

/-! ## JSON values (structured tool results consumed by the healer) -/

/-- JSON-like Python value, as produced by `json.loads` on a Playwright
reporter output and consumed at lines 123-135 of
src/agents/advanced_test_healer.py. -/
inductive JVal where
  | str (s : List Char)
  | num (n : Int)
  | bool (b : Bool)
  | null
  | arr (xs : List JVal)
  | obj (kvs : List (List Char × JVal))

/-- Python `isinstance(x, dict)`. -/
def isObj : JVal → Bool
  | .obj _ => true
  | _ => false

/-- Python `d.get(k, default)`; `none` models the `AttributeError` raised when
the receiver is not a dict. -/
def pyGet : JVal → List Char → JVal → Option JVal
  | .obj kvs, k, d =>
    some (((kvs.find? (fun p => p.1 == k)).map Prod.snd).getD d)
  | _, _, _ => none

/-- Python iteration over a value expected to be a list; a non-list raises
(modelled as `none`: the other iterables would likewise escape into the same
handler, except the vacuous empty-string case, on which no property below
depends). -/
def pyList : JVal → Option (List JVal)
  | .arr xs => some xs
  | _ => none

/-- Python `status_value == "failed"`. -/
def isFailedStatus : JVal → Bool
  | .str s => s == cs "failed"
  | _ => false

/-- The per-spec failure test of lines 127-128: does the first entry of the
spec's `tests` list (defaulted to `[\x7b\x7d]` when the key is absent) contain a
result with status `failed`?  `none` models an exception escaping to the
handler (non-dict shapes, an explicitly empty `tests` list). -/
def specFailed (t : JVal) : Option Bool := do
  let tests ← pyGet t (cs "tests") (.arr [.obj []])
  let testsL ← pyList tests
  let first ← testsL.head?
  let results ← pyGet first (cs "results") (.arr [])
  let resultsL ← pyList results
  resultsL.anyM (fun r => (pyGet r (cs "status") .null).map isFailedStatus)

/-- The per-suite count `len([t for t in specs if ...])` of lines 127-129. -/
def suiteFailCount (suite : JVal) : Option Nat := do
  let specs ← pyGet suite (cs "specs") (.arr [])
  let specsL ← pyList specs
  let flags ← specsL.mapM specFailed
  return (flags.filter id).length

/-- The failure recomputation `total_failures` of lines 125-130. -/
def totalFailures (res : JVal) : Option Nat := do
  let suites ← pyGet res (cs "suites") (.arr [])
  let suitesL ← pyList suites
  let counts ← suitesL.mapM suiteFailCount
  return counts.sum

/-- Check a dict's entry at a key against `P` when the key is present. -/
def entryAll (kvs : List (List Char × JVal)) (k : List Char)
    (P : JVal → Bool) : Bool :=
  match (kvs.find? (fun p => p.1 == k)).map Prod.snd with
  | none => true
  | some v => P v

/-- An array all of whose elements satisfy `P`. -/
def isArrAll (P : JVal → Bool) : JVal → Bool
  | .arr xs => xs.all P
  | _ => false

/-- A non-empty array all of whose elements satisfy `P`. -/
def isArrAllNonempty (P : JVal → Bool) : JVal → Bool
  | .arr xs => !xs.isEmpty && xs.all P
  | _ => false

def wfTest : JVal → Bool
  | .obj kvs => entryAll kvs (cs "results") (isArrAll isObj)
  | _ => false

def wfSpec : JVal → Bool
  | .obj kvs => entryAll kvs (cs "tests") (isArrAllNonempty wfTest)
  | _ => false

def wfSuite : JVal → Bool
  | .obj kvs => entryAll kvs (cs "specs") (isArrAll wfSpec)
  | _ => false

/-- A structured Playwright suite result as the healer consumes it: an object
whose `suites` entry (when present) is an array of suite objects, each of
whose `specs` entry (when present) is an array of spec objects; each spec's
`tests` entry (when present) is a non-empty array of test objects (the JSON
reporter emits at least one test per spec), and each test's `results` entry
(when present) is an array of result objects. -/
def WellFormedReport : JVal → Bool
  | .obj kvs => entryAll kvs (cs "suites") (isArrAll wfSuite)
  | _ => false

/-- No `status` entry of a result object is the string `failed`. -/
def resultNotFailed : JVal → Bool
  | .obj kvs => entryAll kvs (cs "status") (fun v => !isFailedStatus v)
  | _ => true

def testNoFailed : JVal → Bool
  | .obj kvs => entryAll kvs (cs "results") (isArrAll resultNotFailed)
  | _ => true

def specNoFailed : JVal → Bool
  | .obj kvs => entryAll kvs (cs "tests") (isArrAll testNoFailed)
  | _ => true

def suiteNoFailed : JVal → Bool
  | .obj kvs => entryAll kvs (cs "specs") (isArrAll specNoFailed)
  | _ => true

/-- Specification-level reading of "zero specs have a failed status": no
result of any test of any spec of any suite carries the status `failed`. -/
def zeroFailedSpecs : JVal → Bool
  | .obj kvs => entryAll kvs (cs "suites") (isArrAll suiteNoFailed)
  | _ => true

mutual
/-- Rendering stand-in for `json.dumps(tool_result, indent=2)` (lines
107-110); indentation and string escaping are elided — no property below
depends on the rendered text. -/
def dumps : JVal → List Char
  | .str s => '"' :: (s ++ ['"'])
  | .num n => (toString n).toList
  | .bool b => if b then cs "true" else cs "false"
  | .null => cs "null"
  | .arr xs => '[' :: (dumpsList xs ++ [']'])
  | .obj kvs => '\x7b' :: (dumpsObj kvs ++ ['\x7d'])

def dumpsList : List JVal → List Char
  | [] => []
  | x :: rest => dumps x ++ cs ", " ++ dumpsList rest

def dumpsObj : List (List Char × JVal) → List Char
  | [] => []
  | (k, v) :: rest => '"' :: (k ++ cs "\": ") ++ dumps v ++ cs ", "
      ++ dumpsObj rest
end

/-- The `result_str` of lines 107-110: `json.dumps` for dicts, `str(...)`
otherwise (a plain string renders as itself). -/
def resultStr : JVal → List Char
  | .str s => s
  | r => dumps r

/-! ## Advanced test healer (src/agents/advanced_test_healer.py) -/

/-- The tool name compared at line 123. -/
def runAllTestsName : List Char := cs "playwright_run_all_tests"

/-- The diagnostic text of line 138. -/
def toolErrorText (e : List Char) : List Char :=
  cs "Tool execution error: " ++ e

/-- Stand-in for the interpreter-generated text `str(e)` of an exception
raised while recomputing the failure count inside the same `try` block; no
property below depends on this text. -/
def parseErrText : List Char := cs "failure count recomputation raised"

/-- The continuation prompt injected at lines 151-153. -/
def continuePrompt : List Char :=
  cs "Continue with the next step in the healing workflow."

/-- Contents of `src/prompts/test_healer_advanced.txt` (the prompt file is
not part of the repository tree; every property below is independent of this
text). -/
def advancedHealerPrompt : List Char := cs "ADVANCED HEALER PROMPT"

/-- Abridged rendering of the kickoff human message of lines 58-67; its exact
text plays no role below. -/
def healerKickoff : List Char :=
  cs "Begin the advanced healing workflow. Start now by running all tests."

/-- A model response: its content and the requested tool calls. -/
structure ModelResponse where
  content : List Char
  tool_calls : List ToolCallRec
deriving DecidableEq, Repr

/-- External behaviours driving the healer: the tool-bound model call of line
81, the tool execution of lines 96-104 (an `Except.error` is a raised
exception carrying `str(e)`; an unknown tool name raising `StopIteration` at
line 97 is the same shape), and the plain model call of lines 163-182 used
for the summary, given the iteration count, the convergence flag and the last
ten conversation messages.  Each oracle may inspect the whole conversation so
far, so every adversarial behaviour is representable. -/
structure HealerProviders where
  model : List Msg → Except Unit ModelResponse
  tool : List Msg → ToolCallRec → Except (List Char) JVal
  summary : Nat → Bool → List Msg → Except Unit (List Char)

/-- Mutable state of the `while` loop of lines 70-153; `aborted` records a
ModelProvider exception propagating out of the node. -/
structure LoopState where
  messages : List Msg
  iteration : Nat
  all_tests_passing : Bool
  aborted : Bool
deriving DecidableEq, Repr

/-- The `for tool_call in response.tool_calls` body (lines 89-145): execute
each call in order; append its rendered result — or, for a caught exception,
the diagnostic of line 138 — as a tool message; after a
`playwright_run_all_tests` call returning a dict, recompute the failure count
and stop processing the remaining calls when it is zero (the `break` of line
135); an exception raised by the recomputation itself is caught by the same
handler after the result message was already appended.  Returns the extended
message list and the `all_tests_passing` flag. -/
def processToolCalls (P : HealerProviders) :
    List Msg → List ToolCallRec → List Msg × Bool
  | msgs, [] => (msgs, false)
  | msgs, c :: rest =>
    match P.tool msgs c with
    | .error e =>
      processToolCalls P (msgs ++ [.tool (toolErrorText e) c.callId]) rest
    | .ok r =>
      let msgs1 := msgs ++ [.tool (resultStr r) c.callId]
      if c.name == runAllTestsName && isObj r then
        match totalFailures r with
        | some 0 => (msgs1, true)
        | some _ => processToolCalls P msgs1 rest
        | none =>
          processToolCalls P
            (msgs1 ++ [.tool (toolErrorText parseErrText) c.callId]) rest
      else
        processToolCalls P msgs1 rest

/-- One iteration of the healing loop (lines 74-153): bump the counter,
invoke the tool-bound model (a raised exception propagates: `aborted`),
append the response; then either execute the requested tool calls or inject
the continuation prompt. -/
def healIter (P : HealerProviders) (st : LoopState) : LoopState :=
  let it := st.iteration + 1
  match P.model st.messages with
  | .error _ => { st with iteration := it, aborted := true }
  | .ok resp =>
    let msgs := st.messages ++ [.ai resp.content resp.tool_calls]
    if resp.tool_calls.isEmpty then
      { st with iteration := it, messages := msgs ++ [.human continuePrompt] }
    else
      let outcome := processToolCalls P msgs resp.tool_calls
      { st with iteration := it, messages := outcome.1,
                all_tests_passing := outcome.2 }

/-- `max_iterations = 5` of line 70. -/
def maxIterations : Nat := 5

/-- The `while iteration < max_iterations and not all_tests_passing` loop,
driven by the fuel `maxIterations - iteration`; a propagating model exception
also exits. -/
def healLoop (P : HealerProviders) : Nat → LoopState → LoopState
  | 0, st => st
  | fuel + 1, st =>
    if st.all_tests_passing || st.aborted then st
    else healLoop P fuel (healIter P st)

/-- The conversation initialised at lines 56-68. -/
def initialLoopState : LoopState :=
  ⟨[.system advancedHealerPrompt, .human healerKickoff], 0, false, false⟩

/-- Last `n` elements of a list (`messages[-10:]`). -/
def lastN (n : Nat) (l : List Msg) : List Msg := l.drop (l.length - n)

/-- The healing-summary report path of lines 156-160 for a timestamp. -/
def healingReportPath (ts : List Char) : List Char :=
  cs "output/healing_summary/advanced_healing_summary_" ++ ts ++ cs ".md"

/-- Result of one `advanced_test_healer_node` invocation: the healer-local
conversation, the loop counters, the number of summary ModelProvider calls
made after the loop, and the report artifacts written under
`output/healing_summary` (the timestamp is a parameter).  `aborted` is true
when a ModelProvider call raised — inside the loop or at the summary — in
which case the exception propagates out of the node. -/
structure HealerOutcome where
  messages : List Msg
  iterations : Nat
  all_tests_passing : Bool
  aborted : Bool
  summaryCalls : Nat
  artifactWrites : List (List Char × List Char)
deriving DecidableEq, Repr

/-- Embedding of `advanced_test_healer_node`: run the bounded loop, then
unconditionally make one further ModelProvider call over the iteration count,
the convergence flag and the last ten messages, and write its output as the
single summary artifact (lines 155-185). -/
def advancedTestHealer (P : HealerProviders) (ts : List Char) : HealerOutcome :=
  let st := healLoop P maxIterations initialLoopState
  if st.aborted then
    ⟨st.messages, st.iteration, st.all_tests_passing, true, 0, []⟩
  else
    match P.summary st.iteration st.all_tests_passing (lastN 10 st.messages) with
    | .error _ =>
      ⟨st.messages, st.iteration, st.all_tests_passing, true, 1, []⟩
    | .ok report =>
      ⟨st.messages, st.iteration, st.all_tests_passing, false, 1,
       [(healingReportPath ts, report)]⟩

theorem healIter_iteration (P : HealerProviders) (st : LoopState) :
    (healIter P st).iteration = st.iteration + 1 := by
  unfold healIter
  cases P.model st.messages with
  | error e => rfl
  | ok resp =>
    dsimp only
    by_cases h : resp.tool_calls.isEmpty = true
    · rw [if_pos h]
    · rw [if_neg h]

theorem healIter_aborted (P : HealerProviders) (st : LoopState)
    (hm : ∃ resp, P.model st.messages = .ok resp) :
    (healIter P st).aborted = st.aborted := by
  obtain ⟨resp, hresp⟩ := hm
  unfold healIter
  rw [hresp]
  dsimp only
  by_cases h : resp.tool_calls.isEmpty = true
  · rw [if_pos h]
  · rw [if_neg h]

theorem healLoop_exit (P : HealerProviders) (fuel : Nat) (st : LoopState)
    (h : st.all_tests_passing = true ∨ st.aborted = true) :
    healLoop P fuel st = st := by
  cases fuel with
  | zero => rfl
  | succ f =>
    unfold healLoop
    rcases h with h | h <;> simp [h]

theorem healLoop_bound (P : HealerProviders) (fuel : Nat) (st : LoopState) :
    (healLoop P fuel st).iteration ≤ st.iteration + fuel ∧
    ((healLoop P fuel st).aborted = false →
      (healLoop P fuel st).all_tests_passing = true ∨
      (healLoop P fuel st).iteration = st.iteration + fuel) := by
  induction fuel generalizing st with
  | zero => exact ⟨Nat.le_refl _, fun _ => Or.inr rfl⟩
  | succ f ih =>
    by_cases hg : (st.all_tests_passing || st.aborted) = true
    · have hl : healLoop P (f + 1) st = st := by
        unfold healLoop; rw [if_pos hg]
      rw [hl]
      refine ⟨Nat.le_add_right _ _, fun hab => ?_⟩
      rcases Bool.or_eq_true_iff.mp hg with h | h
      · exact Or.inl h
      · exact absurd hab (by simp [h])
    · have hl : healLoop P (f + 1) st = healLoop P f (healIter P st) := by
        rw [healLoop, if_neg hg]
      rw [hl]
      obtain ⟨h1, h2⟩ := ih (healIter P st)
      rw [healIter_iteration] at h1 h2
      exact ⟨by omega, fun hab => (h2 hab).imp id (fun he => by omega)⟩

/-- C1: for every possible ModelProvider and ToolProvider behaviour
(including a model that always requests more tool calls and tools that always
fail), the healer loop performs at most `maxIterations = 5` iterations and
terminates; when the node completes normally it has ended either converged
(`all_tests_passing`) or with the budget exhausted (`iterations =
maxIterations`). -/
theorem healer_loop_bounded_and_terminal (P : HealerProviders)
    (ts : List Char) :
    (advancedTestHealer P ts).iterations ≤ maxIterations ∧
    ((advancedTestHealer P ts).aborted = false →
      (advancedTestHealer P ts).all_tests_passing = true ∨
      (advancedTestHealer P ts).iterations = maxIterations) := by
  obtain ⟨h1, h2⟩ := healLoop_bound P maxIterations initialLoopState
  unfold advancedTestHealer
  dsimp only
  by_cases hab : (healLoop P maxIterations initialLoopState).aborted = true
  · rw [if_pos hab]
    exact ⟨h1, fun hc => by simp at hc⟩
  · rw [if_neg hab]
    have hab' : (healLoop P maxIterations initialLoopState).aborted = false := by
      simpa using hab
    cases hs : P.summary (healLoop P maxIterations initialLoopState).iteration
        (healLoop P maxIterations initialLoopState).all_tests_passing
        (lastN 10 (healLoop P maxIterations initialLoopState).messages) with
    | error e =>
      exact ⟨h1, fun hc => by simp at hc⟩
    | ok report =>
      exact ⟨h1, fun _ => h2 hab'⟩

/-- Providers whose model never requests tools and whose summary succeeds:
the loop then exhausts its budget. -/
def chattyProviders : HealerProviders :=
  ⟨fun _ => .ok ⟨cs "working on it", []⟩,
   fun _ _ => .ok (.str (cs "ok")),
   fun _ _ _ => .ok (cs "summary report")⟩

/-- C1 witness: a concrete never-converging behaviour runs exactly
`maxIterations` iterations. -/
theorem healer_loop_bounded_and_terminal_witness :
    ((advancedTestHealer chattyProviders (cs "20251012")).iterations
        ≤ maxIterations ∧
      ((advancedTestHealer chattyProviders (cs "20251012")).aborted = false →
        (advancedTestHealer chattyProviders
            (cs "20251012")).all_tests_passing = true ∨
        (advancedTestHealer chattyProviders (cs "20251012")).iterations
            = maxIterations)) ∧
    (advancedTestHealer chattyProviders (cs "20251012")).iterations = 5 :=
  ⟨healer_loop_bounded_and_terminal chattyProviders (cs "20251012"),
   by decide⟩

theorem anyM_status_false (rs : List JVal)
    (h : ∀ r ∈ rs, isObj r = true ∧ resultNotFailed r = true) :
    rs.anyM (fun r => (pyGet r (cs "status") JVal.null).map isFailedStatus)
      = some false := by
  induction rs with
  | nil => rfl
  | cons r rest ih =>
    obtain ⟨hobj, hnf⟩ := h r (List.mem_cons_self r rest)
    have hr : (pyGet r (cs "status") JVal.null).map isFailedStatus
        = some false := by
      cases r with
      | obj kvs =>
        cases hfind : kvs.find? (fun p => p.1 == cs "status") with
        | none => simp [pyGet, hfind, isFailedStatus]
        | some kv =>
          have h2 : resultNotFailed (.obj kvs) = true := hnf
          rw [show resultNotFailed (.obj kvs)
              = entryAll kvs (cs "status") (fun v => !isFailedStatus v)
              from rfl, entryAll, hfind] at h2
          simp only [Option.map_some'] at h2
          have hne : isFailedStatus kv.2 = false := by simpa using h2
          simp [pyGet, hfind, hne]
      | str s => simp [isObj] at hobj
      | num n => simp [isObj] at hobj
      | bool b => simp [isObj] at hobj
      | null => simp [isObj] at hobj
      | arr xs => simp [isObj] at hobj
    simp only [List.anyM, hr]
    show rest.anyM _ = some false
    exact ih (fun x hx => h x (List.mem_cons_of_mem _ hx))

theorem pyGet_obj (kvs : List (List Char × JVal)) (k : List Char) (d : JVal) :
    pyGet (.obj kvs) k d
      = some (((kvs.find? (fun p => p.1 == k)).map Prod.snd).getD d) := rfl

theorem specFailed_eq (t : JVal) :
    specFailed t = (pyGet t (cs "tests") (.arr [.obj []])).bind (fun tests =>
      (pyList tests).bind (fun testsL =>
        testsL.head?.bind (fun first =>
          (pyGet first (cs "results") (.arr [])).bind (fun results =>
            (pyList results).bind (fun resultsL =>
              resultsL.anyM (fun r =>
                (pyGet r (cs "status") JVal.null).map isFailedStatus)))))) :=
  rfl

theorem specFailed_false (t : JVal) (hwf : wfSpec t = true)
    (hnf : specNoFailed t = true) : specFailed t = some false := by
  cases t with
  | obj kvs =>
    rw [show wfSpec (.obj kvs)
        = entryAll kvs (cs "tests") (isArrAllNonempty wfTest) from rfl,
      entryAll] at hwf
    rw [show specNoFailed (.obj kvs)
        = entryAll kvs (cs "tests") (isArrAll testNoFailed) from rfl,
      entryAll] at hnf
    cases hfind : kvs.find? (fun p => p.1 == cs "tests") with
    | none =>
      rw [specFailed_eq, pyGet_obj, hfind]
      rfl
    | some kv =>
      rw [hfind] at hwf hnf
      simp only [Option.map_some'] at hwf hnf
      cases hv : kv.2 with
      | arr ts =>
        rw [hv] at hwf hnf
        rw [show isArrAllNonempty wfTest (.arr ts)
            = (!ts.isEmpty && ts.all wfTest) from rfl] at hwf
        rw [show isArrAll testNoFailed (.arr ts) = ts.all testNoFailed
            from rfl] at hnf
        obtain ⟨hne, hall⟩ := Bool.and_eq_true_iff.mp hwf
        cases ts with
        | nil => simp at hne
        | cons t0 trest =>
          have hwt : wfTest t0 = true := by
            have := List.all_eq_true.mp hall t0 (List.mem_cons_self _ _)
            simpa using this
          have hnt : testNoFailed t0 = true := by
            have := List.all_eq_true.mp hnf t0 (List.mem_cons_self _ _)
            simpa using this
          cases t0 with
          | obj tkvs =>
            rw [show wfTest (.obj tkvs)
                = entryAll tkvs (cs "results") (isArrAll isObj) from rfl,
              entryAll] at hwt
            rw [show testNoFailed (.obj tkvs)
                = entryAll tkvs (cs "results") (isArrAll resultNotFailed)
                from rfl, entryAll] at hnt
            have hstep : specFailed (.obj kvs)
                = (pyGet (.obj tkvs) (cs "results") (.arr [])).bind
                    (fun results => (pyList results).bind (fun resultsL =>
                      resultsL.anyM (fun r =>
                        (pyGet r (cs "status") JVal.null).map
                          isFailedStatus))) := by
              rw [specFailed_eq, pyGet_obj, hfind]
              simp only [Option.map_some', Option.getD_some]
              rw [hv]
              rfl
            cases hrfind : tkvs.find? (fun p => p.1 == cs "results") with
            | none =>
              rw [hstep, pyGet_obj, hrfind]
              rfl
            | some rkv =>
              rw [hrfind] at hwt hnt
              simp only [Option.map_some'] at hwt hnt
              cases hrv : rkv.2 with
              | arr rs =>
                rw [hrv] at hwt hnt
                rw [show isArrAll isObj (.arr rs) = rs.all isObj from rfl]
                  at hwt
                rw [show isArrAll resultNotFailed (.arr rs)
                    = rs.all resultNotFailed from rfl] at hnt
                have hany := anyM_status_false rs (fun r hr =>
                  ⟨List.all_eq_true.mp hwt r hr,
                   List.all_eq_true.mp hnt r hr⟩)
                rw [hstep, pyGet_obj, hrfind]
                simp only [Option.map_some', Option.getD_some]
                rw [hrv]
                exact hany
              | str s => rw [hrv] at hwt; simp [isArrAll] at hwt
              | num n => rw [hrv] at hwt; simp [isArrAll] at hwt
              | bool b => rw [hrv] at hwt; simp [isArrAll] at hwt
              | null => rw [hrv] at hwt; simp [isArrAll] at hwt
              | obj o => rw [hrv] at hwt; simp [isArrAll] at hwt
          | str s => simp [wfTest] at hwt
          | num n => simp [wfTest] at hwt
          | bool b => simp [wfTest] at hwt
          | null => simp [wfTest] at hwt
          | arr xs => simp [wfTest] at hwt
      | str s => rw [hv] at hwf; simp [isArrAllNonempty] at hwf
      | num n => rw [hv] at hwf; simp [isArrAllNonempty] at hwf
      | bool b => rw [hv] at hwf; simp [isArrAllNonempty] at hwf
      | null => rw [hv] at hwf; simp [isArrAllNonempty] at hwf
      | obj o => rw [hv] at hwf; simp [isArrAllNonempty] at hwf
  | str s => simp [wfSpec] at hwf
  | num n => simp [wfSpec] at hwf
  | bool b => simp [wfSpec] at hwf
  | null => simp [wfSpec] at hwf
  | arr xs => simp [wfSpec] at hwf

theorem mapM_specFailed_all_false (l : List JVal)
    (h : ∀ t ∈ l, specFailed t = some false) :
    ∃ flags, l.mapM specFailed = some flags ∧ flags.filter id = [] := by
  induction l with
  | nil => exact ⟨[], rfl, rfl⟩
  | cons t rest ih =>
    obtain ⟨flags, hm, hf⟩ := ih (fun x hx => h x (List.mem_cons_of_mem _ hx))
    refine ⟨false :: flags, ?_, by simp [List.filter, hf]⟩
    rw [List.mapM_cons, h t (List.mem_cons_self _ _), hm]
    rfl

theorem suiteFailCount_eq (s : JVal) :
    suiteFailCount s = (pyGet s (cs "specs") (.arr [])).bind (fun specs =>
      (pyList specs).bind (fun specsL =>
        (specsL.mapM specFailed).bind (fun flags =>
          some ((flags.filter id).length)))) := rfl

theorem suiteFailCount_zero (s : JVal) (hwf : wfSuite s = true)
    (hnf : suiteNoFailed s = true) : suiteFailCount s = some 0 := by
  cases s with
  | obj kvs =>
    rw [show wfSuite (.obj kvs)
        = entryAll kvs (cs "specs") (isArrAll wfSpec) from rfl,
      entryAll] at hwf
    rw [show suiteNoFailed (.obj kvs)
        = entryAll kvs (cs "specs") (isArrAll specNoFailed) from rfl,
      entryAll] at hnf
    cases hfind : kvs.find? (fun p => p.1 == cs "specs") with
    | none =>
      rw [suiteFailCount_eq, pyGet_obj, hfind]
      rfl
    | some kv =>
      rw [hfind] at hwf hnf
      simp only [Option.map_some'] at hwf hnf
      cases hv : kv.2 with
      | arr specs =>
        rw [hv] at hwf hnf
        rw [show isArrAll wfSpec (.arr specs) = specs.all wfSpec from rfl]
          at hwf
        rw [show isArrAll specNoFailed (.arr specs)
            = specs.all specNoFailed from rfl] at hnf
        obtain ⟨flags, hm, hfl⟩ := mapM_specFailed_all_false specs
          (fun t ht => specFailed_false t
            (List.all_eq_true.mp hwf t ht)
            (List.all_eq_true.mp hnf t ht))
        rw [suiteFailCount_eq, pyGet_obj, hfind]
        simp only [Option.map_some', Option.getD_some]
        rw [hv]
        show (specs.mapM specFailed).bind
          (fun flags => some ((flags.filter id).length)) = some 0
        rw [hm]
        show some ((flags.filter id).length) = some 0
        rw [hfl]
        rfl
      | str s => rw [hv] at hwf; simp [isArrAll] at hwf
      | num n => rw [hv] at hwf; simp [isArrAll] at hwf
      | bool b => rw [hv] at hwf; simp [isArrAll] at hwf
      | null => rw [hv] at hwf; simp [isArrAll] at hwf
      | obj o => rw [hv] at hwf; simp [isArrAll] at hwf
  | str s => simp [wfSuite] at hwf
  | num n => simp [wfSuite] at hwf
  | bool b => simp [wfSuite] at hwf
  | null => simp [wfSuite] at hwf
  | arr xs => simp [wfSuite] at hwf

theorem mapM_suiteFailCount_all_zero (l : List JVal)
    (h : ∀ s ∈ l, suiteFailCount s = some 0) :
    ∃ counts, l.mapM suiteFailCount = some counts ∧ counts.sum = 0 := by
  induction l with
  | nil => exact ⟨[], rfl, rfl⟩
  | cons s rest ih =>
    obtain ⟨counts, hm, hsum⟩ := ih
      (fun x hx => h x (List.mem_cons_of_mem _ hx))
    refine ⟨0 :: counts, ?_, by simp [hsum]⟩
    rw [List.mapM_cons, h s (List.mem_cons_self _ _), hm]
    rfl

/-- A well-formed structured suite result with zero failed specs is counted
as zero failures by the healer's recomputation. -/
theorem totalFailures_eq (r : JVal) :
    totalFailures r = (pyGet r (cs "suites") (.arr [])).bind (fun suites =>
      (pyList suites).bind (fun suitesL =>
        (suitesL.mapM suiteFailCount).bind (fun counts =>
          some counts.sum))) := rfl

theorem totalFailures_of_wf_zero (r : JVal) (hwf : WellFormedReport r = true)
    (hnf : zeroFailedSpecs r = true) : totalFailures r = some 0 := by
  cases r with
  | obj kvs =>
    rw [show WellFormedReport (.obj kvs)
        = entryAll kvs (cs "suites") (isArrAll wfSuite) from rfl,
      entryAll] at hwf
    rw [show zeroFailedSpecs (.obj kvs)
        = entryAll kvs (cs "suites") (isArrAll suiteNoFailed) from rfl,
      entryAll] at hnf
    cases hfind : kvs.find? (fun p => p.1 == cs "suites") with
    | none =>
      rw [totalFailures_eq, pyGet_obj, hfind]
      rfl
    | some kv =>
      rw [hfind] at hwf hnf
      simp only [Option.map_some'] at hwf hnf
      cases hv : kv.2 with
      | arr suites =>
        rw [hv] at hwf hnf
        rw [show isArrAll wfSuite (.arr suites) = suites.all wfSuite from rfl]
          at hwf
        rw [show isArrAll suiteNoFailed (.arr suites)
            = suites.all suiteNoFailed from rfl] at hnf
        obtain ⟨counts, hm, hsum⟩ := mapM_suiteFailCount_all_zero suites
          (fun s hs => suiteFailCount_zero s
            (List.all_eq_true.mp hwf s hs)
            (List.all_eq_true.mp hnf s hs))
        rw [totalFailures_eq, pyGet_obj, hfind]
        simp only [Option.map_some', Option.getD_some]
        rw [hv]
        show (suites.mapM suiteFailCount).bind
          (fun counts => some counts.sum) = some 0
        rw [hm]
        show some counts.sum = some 0
        rw [hsum]
      | str s => rw [hv] at hwf; simp [isArrAll] at hwf
      | num n => rw [hv] at hwf; simp [isArrAll] at hwf
      | bool b => rw [hv] at hwf; simp [isArrAll] at hwf
      | null => rw [hv] at hwf; simp [isArrAll] at hwf
      | obj o => rw [hv] at hwf; simp [isArrAll] at hwf
  | str s => simp [WellFormedReport] at hwf
  | num n => simp [WellFormedReport] at hwf
  | bool b => simp [WellFormedReport] at hwf
  | null => simp [WellFormedReport] at hwf
  | arr xs => simp [WellFormedReport] at hwf

theorem isObj_of_wf (r : JVal) (hwf : WellFormedReport r = true) :
    isObj r = true := by
  cases r <;> simp_all [WellFormedReport, isObj]

theorem processToolCalls_converges (P : HealerProviders)
    (htool : ∀ ms c, c.name = runAllTestsName →
      ∃ r, P.tool ms c = .ok r ∧ WellFormedReport r = true ∧
           zeroFailedSpecs r = true) :
    ∀ calls msgs, (∃ c ∈ calls, c.name = runAllTestsName) →
      (processToolCalls P msgs calls).2 = true := by
  intro calls
  induction calls with
  | nil =>
    rintro msgs ⟨c, hc, -⟩
    cases hc
  | cons c rest ih =>
    rintro msgs ⟨c0, hc0, hname⟩
    by_cases hcname : c.name = runAllTestsName
    · obtain ⟨r, hr, hwf, hzf⟩ := htool msgs c hcname
      have hobj := isObj_of_wf r hwf
      have hcond : (c.name == runAllTestsName && isObj r) = true := by
        simp [hcname, hobj]
      have h0 := totalFailures_of_wf_zero r hwf hzf
      unfold processToolCalls
      rw [hr]
      dsimp only
      rw [if_pos hcond, h0]
    · have hrest : ∃ d ∈ rest, d.name = runAllTestsName := by
        rcases List.mem_cons.mp hc0 with h | h
        · exact absurd (h ▸ hname) hcname
        · exact ⟨c0, h, hname⟩
      unfold processToolCalls
      cases htc : P.tool msgs c with
      | error e => exact ih _ hrest
      | ok r =>
        dsimp only
        have hcond : (c.name == runAllTestsName && isObj r) = false := by
          simp [hcname]
        rw [if_neg (by rw [hcond]; exact Bool.false_ne_true)]
        exact ih _ hrest

/-- C2: during a Healer iteration in which the model requests a
`playwright_run_all_tests` call and every executed `run_all_tests` returns a
structured suite result in which zero specs have a failed status, the
iteration sets `all_tests_passing` (CONVERGED) and the loop exits on that
very iteration, not a later one. -/
theorem healer_converges_same_iteration (P : HealerProviders) (st : LoopState)
    (fuel : Nat)
    (hatp : st.all_tests_passing = false) (hab : st.aborted = false)
    (htool : ∀ ms c, c.name = runAllTestsName →
      ∃ r, P.tool ms c = .ok r ∧ WellFormedReport r = true ∧
           zeroFailedSpecs r = true)
    (resp : ModelResponse)
    (hresp : P.model st.messages = .ok resp)
    (hcall : ∃ c ∈ resp.tool_calls, c.name = runAllTestsName) :
    (healIter P st).all_tests_passing = true ∧
    healLoop P (fuel + 1) st = healIter P st ∧
    (healLoop P (fuel + 1) st).iteration = st.iteration + 1 := by
  have hne : resp.tool_calls.isEmpty = false := by
    obtain ⟨c, hc, -⟩ := hcall
    cases hl : resp.tool_calls with
    | nil => rw [hl] at hc; cases hc
    | cons a as => rfl
  have hconv := processToolCalls_converges P htool resp.tool_calls
    (st.messages ++ [.ai resp.content resp.tool_calls]) hcall
  have hiter : (healIter P st).all_tests_passing = true := by
    unfold healIter
    rw [hresp]
    dsimp only
    rw [if_neg (by rw [hne]; exact Bool.false_ne_true)]
    exact hconv
  have hguard : (st.all_tests_passing || st.aborted) = false := by
    rw [hatp, hab]; rfl
  have hloop : healLoop P (fuel + 1) st = healIter P st := by
    rw [healLoop, if_neg (by rw [hguard]; exact Bool.false_ne_true)]
    exact healLoop_exit P fuel (healIter P st) (Or.inl hiter)
  exact ⟨hiter, hloop, by rw [hloop, healIter_iteration]⟩

/-- A one-suite, one-spec, one-passing-test structured report. -/
def onePassReport : JVal :=
  .obj [(cs "suites", .arr [
    .obj [(cs "specs", .arr [
      .obj [(cs "tests", .arr [
        .obj [(cs "results", .arr [
          .obj [(cs "status", .str (cs "passed"))]])]])]])]])]

/-- Providers that always request a full-suite run and report it clean. -/
def convergingProviders : HealerProviders :=
  ⟨fun _ => .ok ⟨[], [⟨runAllTestsName, [], cs "call1"⟩]⟩,
   fun _ _ => .ok onePassReport,
   fun _ _ _ => .ok (cs "summary report")⟩

/-- C2 witness: with a clean full-suite report the healer converges on
iteration 1. -/
theorem healer_converges_same_iteration_witness :
    (healIter convergingProviders initialLoopState).all_tests_passing
        = true ∧
    (healLoop convergingProviders 5 initialLoopState).iteration = 1 := by
  have h := healer_converges_same_iteration convergingProviders
    initialLoopState 4 rfl rfl
    (fun ms c hc => ⟨onePassReport, rfl, by decide, by decide⟩)
    ⟨[], [⟨runAllTestsName, [], cs "call1"⟩]⟩ rfl
    ⟨⟨runAllTestsName, [], cs "call1"⟩, by simp, rfl⟩
  exact ⟨h.1, h.2.2⟩

/-- C3: whenever the healing loop exits in a terminal state — converged or
budget exhausted; that is, no model-call exception escaped the loop — the
node makes exactly one further ModelProvider call for the summary, and when
that call returns, it writes exactly one human-readable summary artifact
under `output/healing_summary`; summary generation is not skipped when
`maxIterations` is reached without convergence. -/
theorem healer_summary_unconditional (P : HealerProviders) (ts : List Char)
    (hloop : (healLoop P maxIterations initialLoopState).aborted = false) :
    (advancedTestHealer P ts).summaryCalls = 1 ∧
    ((advancedTestHealer P ts).aborted = false →
      ∃ report, (advancedTestHealer P ts).artifactWrites
        = [(healingReportPath ts, report)]) := by
  unfold advancedTestHealer
  dsimp only
  rw [if_neg (by rw [hloop]; exact Bool.false_ne_true)]
  cases hs : P.summary (healLoop P maxIterations initialLoopState).iteration
      (healLoop P maxIterations initialLoopState).all_tests_passing
      (lastN 10 (healLoop P maxIterations initialLoopState).messages) with
  | error e => exact ⟨rfl, fun hc => by simp at hc⟩
  | ok report => exact ⟨rfl, fun _ => ⟨report, rfl⟩⟩

/-- C3 witness: a budget-exhausting run (model never converges) still makes
the one summary call and writes exactly one summary artifact. -/
theorem healer_summary_unconditional_witness :
    (healLoop chattyProviders maxIterations initialLoopState).aborted
        = false ∧
    (advancedTestHealer chattyProviders (cs "20251012")).summaryCalls = 1 ∧
    (advancedTestHealer chattyProviders (cs "20251012")).artifactWrites
      = [(healingReportPath (cs "20251012"), cs "summary report")] := by
  refine ⟨by decide, (healer_summary_unconditional chattyProviders
    (cs "20251012") (by decide)).1, by decide⟩

theorem healLoop_no_abort (P : HealerProviders)
    (hm : ∀ ms, ∃ resp, P.model ms = .ok resp) :
    ∀ fuel st, st.aborted = false → (healLoop P fuel st).aborted = false := by
  intro fuel
  induction fuel with
  | zero => exact fun st h => h
  | succ f ih =>
    intro st h
    by_cases hg : (st.all_tests_passing || st.aborted) = true
    · rw [healLoop, if_pos hg]
      exact h
    · rw [healLoop, if_neg hg]
      exact ih _ (by rw [healIter_aborted P st (hm st.messages)]; exact h)

/-- C8: an exception during a single tool execution is caught at that call
site and converted into a diagnostic tool message appended to the
conversation, after which the loop continues with the remaining tool calls
and iterations: a run whose ModelProvider never raises completes normally no
matter how the tools fail.  A ModelProvider invocation failure, by contrast,
is not caught locally: the node aborts — here after the first loop model call
— with no summary call and no artifact. -/
theorem healer_tool_errors_caught_model_errors_fatal :
    (∀ (P : HealerProviders) (msgs : List Msg) (c : ToolCallRec)
        (e : List Char) (rest : List ToolCallRec),
      P.tool msgs c = .error e →
      processToolCalls P msgs (c :: rest)
        = processToolCalls P (msgs ++ [.tool (toolErrorText e) c.callId]) rest)
    ∧ (∀ (P : HealerProviders) (ts : List Char),
      (∀ ms, ∃ resp, P.model ms = .ok resp) →
      (∀ it atp ms, ∃ rep, P.summary it atp ms = .ok rep) →
      (advancedTestHealer P ts).aborted = false)
    ∧ (∀ (P : HealerProviders) (ts : List Char),
      (∀ ms, P.model ms = .error ()) →
      (advancedTestHealer P ts).aborted = true ∧
      (advancedTestHealer P ts).summaryCalls = 0 ∧
      (advancedTestHealer P ts).artifactWrites = [] ∧
      (advancedTestHealer P ts).iterations = 1) := by
  refine ⟨?_, ?_, ?_⟩
  · intro P msgs c e rest h
    conv_lhs => rw [processToolCalls]
    rw [h]
  · intro P ts hm hs
    have hl := healLoop_no_abort P hm maxIterations initialLoopState rfl
    unfold advancedTestHealer
    dsimp only
    rw [if_neg (by rw [hl]; exact Bool.false_ne_true)]
    obtain ⟨rep, hrep⟩ :=
      hs (healLoop P maxIterations initialLoopState).iteration
        (healLoop P maxIterations initialLoopState).all_tests_passing
        (lastN 10 (healLoop P maxIterations initialLoopState).messages)
    rw [hrep]
  · intro P ts hm
    have h1 : healIter P initialLoopState
        = { initialLoopState with iteration := 1, aborted := true } := by
      unfold healIter
      rw [hm initialLoopState.messages]
      rfl
    have hstep : healLoop P maxIterations initialLoopState
        = healLoop P 4 (healIter P initialLoopState) := by
      rw [show maxIterations = 4 + 1 from rfl, healLoop,
        if_neg (by decide)]
    have h3 : healLoop P maxIterations initialLoopState
        = { initialLoopState with iteration := 1, aborted := true } := by
      rw [hstep, h1]
      exact healLoop_exit P 4 _ (Or.inr rfl)
    unfold advancedTestHealer
    dsimp only
    rw [h3]
    exact ⟨rfl, rfl, rfl, rfl⟩

/-- Providers whose every tool call raises. -/
def toolFailingProviders : HealerProviders :=
  ⟨fun _ => .ok ⟨[], [⟨cs "browser_wait", [], cs "c1"⟩]⟩,
   fun _ _ => .error (cs "boom"),
   fun _ _ _ => .ok (cs "summary report")⟩

/-- Providers whose model call always raises. -/
def abortingProviders : HealerProviders :=
  ⟨fun _ => .error (), fun _ _ => .ok JVal.null, fun _ _ _ => .ok []⟩

/-- C8 witness: a failing tool is absorbed as a diagnostic message and the
run completes; a failing model call aborts the run. -/
theorem healer_tool_errors_caught_model_errors_fatal_witness :
    processToolCalls toolFailingProviders []
        [⟨cs "browser_wait", [], cs "c1"⟩]
      = processToolCalls toolFailingProviders
          [.tool (toolErrorText (cs "boom")) (cs "c1")] [] ∧
    (advancedTestHealer toolFailingProviders (cs "ts")).aborted = false ∧
    (advancedTestHealer abortingProviders (cs "ts")).aborted = true :=
  ⟨healer_tool_errors_caught_model_errors_fatal.1 toolFailingProviders []
      ⟨cs "browser_wait", [], cs "c1"⟩ (cs "boom") [] rfl,
   healer_tool_errors_caught_model_errors_fatal.2.1 toolFailingProviders
      (cs "ts") (fun _ => ⟨_, rfl⟩) (fun _ _ _ => ⟨_, rfl⟩),
   (healer_tool_errors_caught_model_errors_fatal.2.2 abortingProviders
      (cs "ts") (fun _ => rfl)).1⟩

end QAAgents
